import Mathlib

/-!
# Verification of the ganja.js algebra generator core

Shallow embedding of the algebra-construction and literal-translation core of
`src/ganja.js` (the `Algebra` generator).  JavaScript numbers are embedded as
`Nat`/`Int`/`Rat` where the computations are exact on the inputs considered,
and as an explicit IEEE-special-value type `JSNum` where Infinity/NaN matter.
Line numbers in comments refer to `src/ganja.js`.
-/

namespace Ganja

/-! ## Basis enumerator (ganja.js lines 59-82)

`Algebra(p,q,r)` computes `tot = p+q+r` and builds the basis list by
  1. taking the binary representation of every `xi in 0..2^tot-1`,
     padded to `tot` digits (`(((1<<30)+xi).toString(2)).slice(-tot||-1)`),
  2. replacing each set bit at character position `ai` by the decimal digits
     of the axis number `ai+1-(r==0?0:1)` and each clear bit by nothing,
  3. sorting by string length, ties by the numeric value `a|0` of the string,
  4. mapping a nonempty digit string `x` to the name `'e'+x`, and the empty
     string to `'1'`.
We embed the digit strings as `String` throughout.  The JS sort comparator is
total and antisymmetric on the generated strings (for signatures whose axis
labels are single decimal digits the keys are pairwise distinct), so the
result of the JS engine sort equals the unique sorted permutation, which we
produce with `List.insertionSort`. -/

/-- `r==0?0:1`: the amount subtracted from `ai+1` to obtain the axis label at
character position `ai` (line 75).  With `r>0` the axis labels start at 0. -/
def axShift (r : Nat) : Nat := if r = 0 then 0 else 1

/-- The lowest axis label (`low`, line 80): 1 when `r = 0`, else 0. -/
def lowOf (r : Nat) : Nat := 1 - axShift r

/-- Padded binary width: `slice(-tot||-1)` takes `tot` characters, or one
character when `tot = 0`. -/
def padWidth (tot : Nat) : Nat := max tot 1

/-- The digit string of basis element number `xi` (lines 74-75): each set bit
of `xi` (most significant first, width `padWidth tot`) at character position
`ai` contributes the decimal digits of `ai + 1 - axShift r`. -/
def bladeStr (tot r xi : Nat) : String :=
  String.join ((List.range (padWidth tot)).filterMap (fun ai =>
    if xi / 2 ^ (padWidth tot - 1 - ai) % 2 = 1 then
      some (toString (ai + 1 - axShift r))
    else none))

/-- Accumulate the decimal value of a character list. -/
def svalGo : Nat → List Char → Nat
  | a, [] => a
  | a, c :: cs => svalGo (10 * a + (c.toNat - 48)) cs

/-- The numeric value `s|0` of a digit string (line 76); `''|0 = 0`.
Faithful to JS for digit strings whose value stays below `2^31`. -/
def sval (s : String) : Nat := svalGo 0 s.toList

/-- The sort order of line 76: primarily by string length (= grade for
single-digit axis labels), secondarily by numeric value, ascending. -/
def bladeLE (a b : String) : Prop :=
  a.length < b.length ∨ (a.length = b.length ∧ sval a ≤ sval b)

instance : DecidableRel bladeLE := fun a b => by
  unfold bladeLE; infer_instance

instance : IsTotal String bladeLE := ⟨by
  intro a b
  rcases Nat.lt_trichotomy a.length b.length with h | h | h
  · exact Or.inl (Or.inl h)
  · rcases Nat.le_total (sval a) (sval b) with h2 | h2
    · exact Or.inl (Or.inr ⟨h, h2⟩)
    · exact Or.inr (Or.inr ⟨h.symm, h2⟩)
  · exact Or.inr (Or.inl h)⟩

instance : IsTrans String bladeLE := ⟨by
  intro a b c hab hbc
  rcases hab with h1 | ⟨e1, v1⟩
  · rcases hbc with h2 | ⟨e2, _⟩
    · exact Or.inl (h1.trans h2)
    · exact Or.inl (e2 ▸ h1)
  · rcases hbc with h2 | ⟨e2, v2⟩
    · exact Or.inl (e1 ▸ h2)
    · exact Or.inr ⟨e1.trans e2, v1.trans v2⟩⟩

/-- The sorted list of digit strings (lines 73-76, before the name map). -/
def basisPre (p q r : Nat) : List String :=
  List.insertionSort bladeLE
    ((List.range (2 ^ (p + q + r))).map (bladeStr (p + q + r) r))

/-- The basis name list (line 77): `x&&'e'+x||'1'`. -/
def basisNames (p q r : Nat) : List String :=
  (basisPre p q r).map (fun x => if x = "" then "1" else "e" ++ x)

/-- Valid signatures: those whose axis labels are single decimal digits, the
range in which the character-wise simplifier and the sort key of ganja.js are
faithful to the intended blade structure (axes `1..tot` when `r = 0`, axes
`0..tot-1` otherwise). -/
def validSig (p q r : Nat) : Prop :=
  if r = 0 then p + q ≤ 9 else p + q + r ≤ 10

instance (p q r : Nat) : Decidable (validSig p q r) := by
  unfold validSig; infer_instance

end Ganja

namespace Ganja

/-! ## Blade simplifier (ganja.js lines 84-96)

`simplify(s,p,q,r)` strips the `e`s from the concatenation of two basis
names, then repeatedly (a) cancels adjacent equal axis characters, turning
the running sign by the metric of that axis (`(s[i]-low)>=(p+r)` gives the
`-1` axes, `(s[i]-low)<r` kills the sign, all other axes square to `+1`),
and (b) performs ONE adjacent bubble swap (with a sign flip) per round,
until a round changes nothing.  We embed the character list as `List Nat` of
digit values and run the outer `while` loop on a fuel that dominates the
number of rounds actually used in every theorem below (each round removes
two elements or repairs one inversion, so `(n+1)*(n+2)` rounds always
suffice for a list of length `n`).

The final remap through `brm` (line 94/96) is the identity for the
auto-generated basis: `brm` maps each canonical simplified name back to the
basis spelling, and the generated names are already canonical.  It is
therefore not modelled. -/

/-- A signed canonical blade, or zero: the result `'0'`, `'-e..'`, `'e..'`,
`'1'`, `'-1'` of `simplify`.  `digits = []` is the scalar `1`. -/
inductive SBlade where
  | zero : SBlade
  | blade (neg : Bool) (digits : List Nat) : SBlade
deriving DecidableEq, Repr

/-- The sign contributed by cancelling the squared axis with label `d`
(line 90): `-1` for the `q` last axes, `0` for the `r` first axes, `+1` in
between. -/
def digitSign (p q r low : Nat) (d : Nat) : Int :=
  if p + r ≤ d - low then -1 else if d - low < r then 0 else 1

/-- One run of the cancellation pass (line 90): returns the accumulated sign
factor, the surviving characters `t`, and the `f` flag. -/
def cancelPass (p q r low : Nat) : List Nat → Int × List Nat × Bool
  | [] => (1, [], false)
  | [a] => (1, [a], false)
  | a :: b :: rest =>
    if a = b then
      let x := cancelPass p q r low rest
      (digitSign p q r low a * x.1, x.2.1, true)
    else
      let x := cancelPass p q r low (b :: rest)
      (x.1, a :: x.2.1, x.2.2)

/-- One run of the bubble pass (line 92): at most one adjacent swap (the
loop `break`s after the first), flipping the sign. -/
def bubblePass : List Nat → Int × List Nat × Bool
  | a :: b :: rest =>
    if b < a then (-1, b :: a :: rest, true)
    else
      let x := bubblePass (b :: rest)
      (x.1, a :: x.2.1, x.2.2)
  | l => (1, l, false)

/-- The outer `while (f)` loop of lines 88-93. -/
def simpLoop (p q r low : Nat) : Nat → Int → List Nat → Int × List Nat
  | 0, sign, s => (sign, s)
  | fuel + 1, sign, s =>
    let c := cancelPass p q r low s
    let b := bubblePass c.2.1
    if c.2.2 || b.2.2 then simpLoop p q r low fuel (sign * c.1 * b.1) b.2.1
    else (sign * c.1, c.2.1)

/-- `simplify` on a list of axis digits (lines 86-95). -/
def simplifyL (p q r low : Nat) (s : List Nat) : SBlade :=
  let x := simpLoop p q r low ((s.length + 1) * (s.length + 2)) 1 s
  if x.1 = 0 then .zero else .blade (decide (x.1 < 0)) x.2

/-- Digit values of a basis name: `s.replace(/e/g,'')` read character-wise
(line 87). -/
def strDigits (s : String) : List Nat :=
  (s.toList.filter (fun c => c ≠ 'e')).map (fun c => c.toNat - 48)

/-- `simplify` on a string input as in the source. -/
def simplifyS (p q r low : Nat) (s : String) : SBlade :=
  simplifyL p q r low (strDigits s)

/-- The metric value of axis position `k` (0-based among the `tot` axes) as
the specification states it: `0` for the `r` null axes, `+1` for the `p`
positive axes, `-1` for the `q` negative axes. -/
def specMetric (p q r : Nat) (k : Nat) : Int :=
  if k < r then 0 else if k < r + p then 1 else -1

/-- A scalar result of `simplify`: `'0'`, `'1'` or `'-1'`. -/
def scalarSB (i : Int) : SBlade :=
  if i = 0 then .zero else .blade (decide (i < 0)) []

/-- Negation of a simplify result (`eᵢeⱼ = -eⱼeᵢ`). -/
def SBlade.negSB : SBlade → SBlade
  | .zero => .zero
  | .blade n d => .blade (!n) d

end Ganja

namespace Ganja

/-! ## Multiplication tables (ganja.js lines 98-127)

`mulTable[xi][yi]` is `simplify(basis[xi]+basis[yi], p, q, r)` with the
scalar cases short-circuited (`(x==1)?y:(y==1)?x`); `mulTable2` is the same
with the all-positive metric `(p+q+r,0,0)` (`low` stays the outer one).
Lines 116-127 then convert the tables into sparse per-cell product entries:
the pair `(xi,yi)` contributes to the output cell `oi` whose blade equals
the unsigned blade of `mulTable[xi][yi]` (falling back to `mulTable2` when
the metric product is `'0'`), and the entry is the signed term
`±b[yi]*this[xi]` (or `'0'`).  For the generated basis the contributing
`yi` is unique per `(oi,xi)` (the product blade is the symmetric difference
of the operand blades), so the dictionary `gpo`/`opo` grouping is embedded
as a `List.find?` over `yi`. -/

/-- The digit string of basis element `i` (the name without the `e`). -/
def preOf (p q r i : Nat) : String := (basisPre p q r).getD i ""

/-- Grade per component (line 81): `basis.map(x=>x.length-1)`; the name of a
blade with digit string `s` has length `s.length + 1` except the scalar
`'1'`, so this equals the digit-string length for the generated basis. -/
def gradeOf (p q r i : Nat) : Nat :=
  (if preOf p q r i = "" then "1" else "e" ++ preOf p q r i).length - 1

/-- `mulTable[xi][yi]` (line 106). -/
def mulTableE (p q r xi yi : Nat) : SBlade :=
  if preOf p q r xi = "" then .blade false (strDigits (preOf p q r yi))
  else if preOf p q r yi = "" then .blade false (strDigits (preOf p q r xi))
  else simplifyS p q r (lowOf r) (preOf p q r xi ++ preOf p q r yi)

/-- `mulTable2[xi][yi]` (line 107): metric-free, `simplify(x+y,p+q+r,0,0)`
with the same closed-over `low`. -/
def mulTable2E (p q r xi yi : Nat) : SBlade :=
  if preOf p q r xi = "" then .blade false (strDigits (preOf p q r yi))
  else if preOf p q r yi = "" then .blade false (strDigits (preOf p q r xi))
  else simplifyS (p + q + r) 0 0 (lowOf r) (preOf p q r xi ++ preOf p q r yi)

/-- Unsigned digits of a simplify result: the leading minus stripped as in
`mulTableb` (line 108). -/
def SBlade.digitsOf : SBlade → List Nat
  | .zero => []
  | .blade _ d => d

/-- The blade under which the pair `(xi,yi)` is filed into `gpo` (line 118):
the unsigned geometric-product blade, or the outer-product blade when the
geometric product is `'0'`. -/
def gpKey (p q r xi yi : Nat) : List Nat :=
  match mulTableE p q r xi yi with
  | .zero => (mulTable2E p q r xi yi).digitsOf
  | .blade _ d => d

/-- The `yi` paired with `(oi,xi)` in the geometric-product cell (line 118 +
line 123): the generator with `gpKey xi yi` = blade of `oi`. -/
def gpContrib (p q r oi xi : Nat) : Option Nat :=
  (List.range (2 ^ (p + q + r))).find?
    (fun yi => gpKey p q r xi yi = strDigits (preOf p q r oi))

/-- The `yi` paired with `(oi,xi)` in the outer-product cell (line 119 +
line 122). -/
def opContrib (p q r oi xi : Nat) : Option Nat :=
  (List.range (2 ^ (p + q + r))).find?
    (fun yi => (mulTable2E p q r xi yi).digitsOf = strDigits (preOf p q r oi))

/-- A product-table cell: `'0'`, or the signed term `±b[yi]*this[xi]`. -/
inductive Entry where
  | zero : Entry
  | term (neg : Bool) (yi xi : Nat) : Entry
deriving DecidableEq, Repr

/-- `gp[oi][xi]` (line 124). -/
def gpEntry (p q r oi xi : Nat) : Entry :=
  match gpContrib p q r oi xi with
  | none => .zero
  | some yi =>
    match mulTableE p q r xi yi with
    | .zero => .zero
    | .blade ng _ => .term ng yi xi

/-- `cp[oi][xi]` (line 125): the geometric-product entry kept only where
`grades[oi] == grades[yi]-grades[xi]` (JS signed integer subtraction). -/
def cpEntry (p q r oi xi : Nat) : Entry :=
  match gpContrib p q r oi xi with
  | none => .zero
  | some yi =>
    if (gradeOf p q r oi : Int) = (gradeOf p q r yi : Int) - gradeOf p q r xi
    then gpEntry p q r oi xi else .zero

/-- `op[oi][xi]` (line 122): the metric-free entry kept only where
`grades[oi] == grades[xi]+grades[yi]`. -/
def opEntry (p q r oi xi : Nat) : Entry :=
  match opContrib p q r oi xi with
  | none => .zero
  | some yi =>
    if gradeOf p q r oi = gradeOf p q r xi + gradeOf p q r yi then
      match mulTable2E p q r xi yi with
      | .zero => .zero
      | .blade ng _ => .term ng yi xi
    else .zero

/-- The dual remap `drm` (lines 99-102): indices sorted by name length, ties
by the numeric value of the sorted digits of the name, then reversed.  For
the generated basis the sort is the identity permutation, but we build it
from the source recipe. -/
def drm (p q r : Nat) : List Nat :=
  (List.insertionSort
    (fun (a b : Nat × String) =>
      a.2.length < b.2.length ∨
        (a.2.length = b.2.length ∧
          sval (String.mk (a.2.toList.mergeSort (· ≤ ·))) ≤
            sval (String.mk (b.2.toList.mergeSort (· ≤ ·)))))
    (((basisNames p q r).enum.map (fun x => (x.1, x.2))))).map (·.1)
  |>.reverse

end Ganja

namespace Ganja

/-! ## Generated operations (ganja.js lines 720-752)

The synthesized `Mul`/`Dot`/`Wedge` bodies are, per output component `ri`,
the left-to-right sum of the non-`'0'` entries `±b[yi]*this[xi]` of the
corresponding table row (`'+0'` fragments are removed textually, and a
leading `'0+'` contributes the number 0 to the JS sum, which is identity
also on Infinity/NaN).  We evaluate rows generically over a coefficient
type given by explicit `add`/`mul`/`neg` operations and a zero, so the same
embedding serves exact integer/rational coefficients and the IEEE
special-value model `JSNum`. -/

/-- Evaluate one table row: fold the non-zero entries left-to-right starting
from 0 (`-b[yi]*this[xi]` parses in JS as `(-b[yi])*this[xi]`). -/
def rowEval (addF mulF : A → A → A) (negF : A → A) (z : A) (n : Nat)
    (entry : Nat → Entry) (aF bF : Nat → A) : A :=
  ((List.range n).filterMap (fun xi =>
    match entry xi with
    | .zero => none
    | .term ng yi xj =>
      some (if ng then mulF (negF (bF yi)) (aF xj) else mulF (bF yi) (aF xj))))
  |>.foldl addF z

/-- A generated product method: `res[ri] = row ri` for each `ri`
(lines 722-724).  `table` selects `gp`, `cp` or `op`. -/
def prodVec (addF mulF : A → A → A) (negF : A → A) (z : A)
    (p q r : Nat) (table : Nat → Nat → Nat → Nat → Nat → Entry)
    (a b : List A) : List A :=
  (List.range (2 ^ (p + q + r))).map (fun ri =>
    rowEval addF mulF negF z (2 ^ (p + q + r)) (fun xi => table p q r ri xi)
      (fun i => a.getD i z) (fun i => b.getD i z))

/-- Geometric product over the integers (exact for the small integral
float32 coefficients in the scenarios below). -/
def mulZ (p q r : Nat) (a b : List Int) : List Int :=
  prodVec (· + ·) (· * ·) (- ·) 0 p q r gpEntry a b

/-- Componentwise `Add` (line 720): `res[xi] = b[xi] + this[xi]`. -/
def addZ (p q r : Nat) (a b : List Int) : List Int :=
  (List.range (2 ^ (p + q + r))).map (fun xi => b.getD xi 0 + a.getD xi 0)

/-! ## JS numbers with Infinity and NaN

For the singular-inverse claim the IEEE special values matter: `1/0` is
`Infinity` and `0*Infinity` is `NaN`.  We embed a JS number as an exact
rational or one of the three special values, with the IEEE rules for the
operations used by the inverse formula.  (Signed zero is not modelled; no
negative zero arises in the computations below.) -/

inductive JSNum where
  | fin (x : Rat) : JSNum
  | inf : JSNum
  | ninf : JSNum
  | nan : JSNum
deriving DecidableEq, Repr

def jsAdd : JSNum → JSNum → JSNum
  | .nan, _ => .nan
  | _, .nan => .nan
  | .fin a, .fin b => .fin (a + b)
  | .fin _, .inf => .inf
  | .inf, .fin _ => .inf
  | .fin _, .ninf => .ninf
  | .ninf, .fin _ => .ninf
  | .inf, .inf => .inf
  | .ninf, .ninf => .ninf
  | .inf, .ninf => .nan
  | .ninf, .inf => .nan

def jsMul : JSNum → JSNum → JSNum
  | .nan, _ => .nan
  | _, .nan => .nan
  | .fin a, .fin b => .fin (a * b)
  | .fin a, .inf => if a = 0 then .nan else if 0 < a then .inf else .ninf
  | .inf, .fin a => if a = 0 then .nan else if 0 < a then .inf else .ninf
  | .fin a, .ninf => if a = 0 then .nan else if 0 < a then .ninf else .inf
  | .ninf, .fin a => if a = 0 then .nan else if 0 < a then .ninf else .inf
  | .inf, .inf => .inf
  | .ninf, .ninf => .inf
  | .inf, .ninf => .ninf
  | .ninf, .inf => .ninf

def jsNeg : JSNum → JSNum
  | .fin a => .fin (-a)
  | .inf => .ninf
  | .ninf => .inf
  | .nan => .nan

/-- JS division, for the `1/normalizer` of the inverse formula (`1/0` is
`Infinity`; rationals have no signed zero, so the dividend-zero case keeps
the IEEE positive-zero behaviour). -/
def jsDiv : JSNum → JSNum → JSNum
  | .nan, _ => .nan
  | _, .nan => .nan
  | .fin a, .fin b =>
    if b = 0 then (if a = 0 then .nan else if 0 < a then .inf else .ninf)
    else .fin (a / b)
  | .fin _, .inf => .fin 0
  | .fin _, .ninf => .fin 0
  | .inf, .fin b => if b < 0 then .ninf else .inf
  | .ninf, .fin b => if b < 0 then .inf else .ninf
  | .inf, _ => .nan
  | .ninf, _ => .nan

/-- Geometric product over `JSNum`. -/
def mulN (p q r : Nat) (a b : List JSNum) : List JSNum :=
  prodVec jsAdd jsMul jsNeg (.fin 0) p q r gpEntry a b

/-- Grade involution (line 734): `this[i]*[1,-1,1,-1][grades[i]%4]`. -/
def involuteN (p q r : Nat) (a : List JSNum) : List JSNum :=
  (List.range (2 ^ (p + q + r))).map (fun i =>
    jsMul (a.getD i (.fin 0))
      (.fin ([1, -1, 1, -1].getD (gradeOf p q r i % 4) 1)))

/-- Reversion (line 733): `this[i]*[1,1,-1,-1][grades[i]%4]`. -/
def reverseN (p q r : Nat) (a : List JSNum) : List JSNum :=
  (List.range (2 ^ (p + q + r))).map (fun i =>
    jsMul (a.getD i (.fin 0))
      (.fin ([1, 1, -1, -1].getD (gradeOf p q r i % 4) 1)))

/-- Clifford conjugation (line 735): `this[i]*[1,-1,-1,1][grades[i]%4]`. -/
def conjugateN (p q r : Nat) (a : List JSNum) : List JSNum :=
  (List.range (2 ^ (p + q + r))).map (fun i =>
    jsMul (a.getD i (.fin 0))
      (.fin ([1, -1, -1, 1].getD (gradeOf p q r i % 4) 1)))

/-- `Map(a,b)` (line 146): negate the grades `a` and `b`. -/
def mapN (p q r : Nat) (g1 g2 : Nat) (a : List JSNum) : List JSNum :=
  (List.range (2 ^ (p + q + r))).map (fun i =>
    jsMul (a.getD i (.fin 0))
      (.fin (if gradeOf p q r i = g1 ∨ gradeOf p q r i = g2 then -1 else 1)))

/-- `Element.Scalar(x)` (line 153). -/
def scalarN (p q r : Nat) (x : JSNum) : List JSNum :=
  (List.range (2 ^ (p + q + r))).map (fun i => if i = 0 then x else .fin 0)

/-- The closed-form `Inverse` getter (lines 745-752), by total dimension.
There is no singularity check: the normalizer is inverted with plain JS
division. -/
def inverseN (p q r : Nat) (a : List JSNum) : List JSNum :=
  let tot := p + q + r
  let one : JSNum := .fin 1
  if tot = 0 then scalarN p q r (jsDiv one (a.getD 0 (.fin 0)))
  else if tot = 1 then
    mulN p q r (involuteN p q r a)
      (scalarN p q r (jsDiv one ((mulN p q r a (involuteN p q r a)).getD 0 (.fin 0))))
  else if tot = 2 then
    mulN p q r (conjugateN p q r a)
      (scalarN p q r (jsDiv one ((mulN p q r a (conjugateN p q r a)).getD 0 (.fin 0))))
  else if tot = 3 then
    mulN p q r (mulN p q r (mulN p q r (reverseN p q r a) (involuteN p q r a)) (conjugateN p q r a))
      (scalarN p q r (jsDiv one
        ((mulN p q r (mulN p q r (mulN p q r a (conjugateN p q r a)) (involuteN p q r a)) (reverseN p q r a)).getD 0 (.fin 0))))
  else if tot = 4 then
    let ac := mulN p q r a (conjugateN p q r a)
    mulN p q r (mulN p q r (conjugateN p q r a) (mapN p q r 3 4 ac))
      (scalarN p q r (jsDiv one ((mulN p q r ac (mapN p q r 3 4 ac)).getD 0 (.fin 0))))
  else
    let acir := mulN p q r (mulN p q r (conjugateN p q r a) (involuteN p q r a)) (reverseN p q r a)
    let acir2 := mulN p q r (mulN p q r (mulN p q r a (conjugateN p q r a)) (involuteN p q r a)) (reverseN p q r a)
    mulN p q r (mulN p q r acir (mapN p q r 1 4 acir2))
      (scalarN p q r (jsDiv one ((mulN p q r acir2 (mapN p q r 1 4 acir2)).getD 0 (.fin 0))))

/-- True for `Infinity`, `-Infinity` and `NaN`. -/
def JSNum.nonFinite : JSNum → Bool
  | .fin _ => false
  | _ => true

end Ganja

namespace Ganja

/-! ## Length and Normalized (ganja.js lines 739-741)

`Length` is `Math.sqrt(Math.abs(this.Mul(this.Conjugate).s))`; `Normalized`
returns `this` itself when `!l`, else scales by `1/l`.  Coefficients are
embedded as rationals and `Math.sqrt` as an explicit function parameter
(the square root of a rational is in general irrational; no property of it
is needed for the zero-length claim). -/

def mulQ (p q r : Nat) (a b : List Rat) : List Rat :=
  prodVec (· + ·) (· * ·) (- ·) 0 p q r gpEntry a b

def conjugateQ (p q r : Nat) (a : List Rat) : List Rat :=
  (List.range (2 ^ (p + q + r))).map (fun i =>
    a.getD i 0 * ([1, -1, -1, 1].getD (gradeOf p q r i % 4) 1))

/-- The argument of the square root in `Length` (line 739). -/
def lengthSqArg (p q r : Nat) (a : List Rat) : Rat :=
  |(mulQ p q r a (conjugateQ p q r a)).getD 0 0|

/-- `Normalized` (line 741), with `Math.sqrt` passed in as `sq`. -/
def normalizedW (p q r : Nat) (sq : Rat → Rat) (a : List Rat) : List Rat :=
  let l := sq (lengthSqArg p q r a)
  if l = 0 then a else a.map (· * (1 / l))

/-! ## The generated method bodies as assignment programs (lines 720-725)

Each generated operation is a JS function body of the shape
`res = res || new this.constructor(); res[k] = ...; ...; return res`,
reading only `this` and `b` and writing only `res`.  To settle the frame
claim (operands never mutated) non-vacuously we model the bodies as
statement lists over a store containing all three coefficient arrays, with
a general assignment statement that could target any of the three, and
prove that the synthesized bodies only ever target `res`. -/

inductive Var where
  | vthis | vb | vres
deriving DecidableEq, Repr

inductive AExp where
  | lit (z : Int)
  | read (v : Var) (k : Nat)
  | add (x y : AExp)
  | sub (x y : AExp)
  | mul (x y : AExp)
  | neg (x : AExp)
deriving DecidableEq, Repr

/-- The JS store: the three coefficient arrays in scope in a generated
method body. -/
structure MState where
  ths : List Int
  b : List Int
  res : List Int
deriving DecidableEq, Repr

def MState.readV (s : MState) : Var → Nat → Int
  | .vthis, k => s.ths.getD k 0
  | .vb, k => s.b.getD k 0
  | .vres, k => s.res.getD k 0

def evalA (s : MState) : AExp → Int
  | .lit z => z
  | .read v k => s.readV v k
  | .add x y => evalA s x + evalA s y
  | .sub x y => evalA s x - evalA s y
  | .mul x y => evalA s x * evalA s y
  | .neg x => -evalA s x

/-- An assignment `v[k] = e`. -/
inductive Stmt where
  | assign (v : Var) (k : Nat) (e : AExp)
deriving DecidableEq, Repr

def Stmt.target : Stmt → Var
  | .assign v _ _ => v

def execS (s : MState) : Stmt → MState
  | .assign .vthis k e => { s with ths := s.ths.set k (evalA s e) }
  | .assign .vb k e => { s with b := s.b.set k (evalA s e) }
  | .assign .vres k e => { s with res := s.res.set k (evalA s e) }

def runBody (s : MState) (body : List Stmt) : MState :=
  body.foldl execS s

/-- A table row as the expression `t1+t2+...` (the `'0'` entries filtered
out by the `'+0'` removal; `-b[yi]*this[xi]` is `(-b[yi])*this[xi]`).
`remap` is the identity except in `Vee`, where reads go through `drm`. -/
def rowExpr (n : Nat) (entry : Nat → Entry) (remap : Nat → Nat) : AExp :=
  ((List.range n).filterMap (fun xi =>
    match entry xi with
    | .zero => none
    | .term ng yi xj =>
      some (if ng then AExp.mul (.neg (.read .vb (remap yi))) (.read .vthis (remap xj))
            else AExp.mul (.read .vb (remap yi)) (.read .vthis (remap xj)))))
  |>.foldl .add (.lit 0)

inductive OpKind where
  | addK | subK | mulK | dotK | wedgeK | veeK
deriving DecidableEq, Repr

/-- The synthesized body of each generated operation (lines 720-725). -/
def codegen (p q r : Nat) : OpKind → List Stmt
  | .addK => (List.range (2 ^ (p + q + r))).map (fun xi =>
      .assign .vres xi (.add (.read .vb xi) (.read .vthis xi)))
  | .subK => (List.range (2 ^ (p + q + r))).map (fun xi =>
      .assign .vres xi (.sub (.read .vthis xi) (.read .vb xi)))
  | .mulK => (List.range (2 ^ (p + q + r))).map (fun ri =>
      .assign .vres ri (rowExpr (2 ^ (p + q + r)) (gpEntry p q r ri) id))
  | .dotK => (List.range (2 ^ (p + q + r))).map (fun ri =>
      .assign .vres ri (rowExpr (2 ^ (p + q + r)) (cpEntry p q r ri) id))
  | .wedgeK => (List.range (2 ^ (p + q + r))).map (fun ri =>
      .assign .vres ri (rowExpr (2 ^ (p + q + r)) (opEntry p q r ri) id))
  | .veeK => (List.range (2 ^ (p + q + r))).map (fun ri =>
      .assign .vres ((drm p q r).getD ri 0)
        (rowExpr (2 ^ (p + q + r)) (opEntry p q r ri) (fun j => (drm p q r).getD j 0)))

/-- Calling a generated operation without the optional `res` argument:
`res = new this.constructor()` is a fresh all-zero array (line 133), the
body runs, and the returned value is the final `res`. -/
def callOp (p q r : Nat) (k : OpKind) (a b : List Int) : MState :=
  runBody ⟨a, b, List.replicate (2 ^ (p + q + r)) 0⟩ (codegen p q r k)

end Ganja

namespace Ganja

/-! ## Support lemmas -/

lemma simpLoop_two (p q r low : Nat) (sign : Int) (d : Nat) (fuel : Nat) :
    simpLoop p q r low (fuel + 2) sign [d, d] = (sign * digitSign p q r low d, []) := by
  simp [simpLoop, cancelPass, bubblePass]

lemma simplify_sq (p q r low d : Nat) :
    simplifyL p q r low [d, d] = scalarSB (digitSign p q r low d) := by
  unfold simplifyL
  rw [show (([d, d] : List Nat).length + 1) * (([d, d] : List Nat).length + 2) = 10 + 2 from by
    norm_num, simpLoop_two]
  simp [scalarSB]

lemma simplify_pair_lt (p q r low : Nat) (a b : Nat) (h : a < b) :
    simplifyL p q r low [a, b] = .blade false [a, b] := by
  unfold simplifyL
  rw [show (([a, b] : List Nat).length + 1) * (([a, b] : List Nat).length + 2) = 10 + 2 from by
    norm_num]
  simp [simpLoop, cancelPass, bubblePass, h, h.ne, h.ne', Nat.lt_asymm h]

lemma simplify_pair_gt (p q r low : Nat) (a b : Nat) (h : a < b) :
    simplifyL p q r low [b, a] = .blade true [a, b] := by
  unfold simplifyL
  rw [show (([b, a] : List Nat).length + 1) * (([b, a] : List Nat).length + 2) = 10 + 2 from by
    norm_num]
  simp [simpLoop, cancelPass, bubblePass, h, h.ne, h.ne', Nat.lt_asymm h]

lemma digitSign_low (p q r k : Nat) :
    digitSign p q r (lowOf r) (lowOf r + k) = specMetric p q r k := by
  unfold digitSign specMetric
  rw [show lowOf r + k - lowOf r = k from by omega]
  split_ifs <;> omega

lemma basisNames_length (p q r : Nat) :
    (basisNames p q r).length = 2 ^ (p + q + r) := by
  simp [basisNames, basisPre]

lemma codegen_targets (p q r : Nat) (k : OpKind) :
    ∀ st ∈ codegen p q r k, st.target = .vres := by
  cases k <;> · intro st hst
                simp only [codegen, List.mem_map] at hst
                obtain ⟨x, -, rfl⟩ := hst
                rfl

lemma runBody_frame (body : List Stmt) :
    ∀ s : MState, (∀ st ∈ body, st.target = .vres) →
      (runBody s body).ths = s.ths ∧ (runBody s body).b = s.b := by
  induction body with
  | nil => exact fun s _ => ⟨rfl, rfl⟩
  | cons st rest ih =>
    intro s h
    have ht := h st (List.mem_cons_self st rest)
    have h2 : ∀ u ∈ rest, u.target = .vres := fun u hu => h u (List.mem_cons_of_mem _ hu)
    cases st with
    | assign v k e =>
      cases v with
      | vres =>
        have := ih ({ s with res := s.res.set k (evalA s e) }) h2
        simpa [runBody, execS] using this
      | vthis => simp [Stmt.target] at ht
      | vb => simp [Stmt.target] at ht

/-! ## Claims -/

/-- C1: for every valid signature `(p,q,r)` the generated basis list has
exactly `2^(p+q+r)` entries and is sorted primarily by grade (digit-tuple
length) and secondarily by ascending numeric value of the index tuple; in
particular `Algebra(3,0,0)` yields
`["1","e1","e2","e3","e12","e13","e23","e123"]`. -/
theorem basis_enumeration_c1 (p q r : Nat) (h : validSig p q r) :
    (basisNames p q r).length = 2 ^ (p + q + r)
    ∧ List.Sorted bladeLE (basisPre p q r)
    ∧ basisNames 3 0 0 = ["1", "e1", "e2", "e3", "e12", "e13", "e23", "e123"] :=
  ⟨basisNames_length p q r, List.sorted_insertionSort bladeLE _, by decide⟩

theorem basis_enumeration_c1_witness :
    validSig 3 0 0 ∧ (basisNames 3 0 0).length = 2 ^ 3 :=
  ⟨by decide, (basis_enumeration_c1 3 0 0 (by decide)).1⟩

/-- C2: for every axis `i` of a valid algebra `(p,q,r)` the blade simplifier
reduces `eᵢeᵢ` to the metric value of axis `i` (`0` on the `r` null axes,
`+1` on the `p` positive axes, `-1` on the `q` negative axes), and for
distinct axes it anticommutes: `eᵢeⱼ = -eⱼeᵢ` (and is never zero). -/
theorem simplifier_metric_c2 (p q r : Nat) (h : validSig p q r)
    (i j : Nat) (hi : i < p + q + r) (hj : j < p + q + r) :
    simplifyL p q r (lowOf r) [lowOf r + i, lowOf r + i] = scalarSB (specMetric p q r i)
    ∧ (i ≠ j →
        simplifyL p q r (lowOf r) [lowOf r + i, lowOf r + j]
          = (simplifyL p q r (lowOf r) [lowOf r + j, lowOf r + i]).negSB
        ∧ simplifyL p q r (lowOf r) [lowOf r + i, lowOf r + j] ≠ SBlade.zero) := by
  refine ⟨by rw [simplify_sq, digitSign_low], fun hij => ?_⟩
  rcases Nat.lt_or_ge (lowOf r + i) (lowOf r + j) with hlt | hge
  · rw [simplify_pair_lt p q r (lowOf r) _ _ hlt, simplify_pair_gt p q r (lowOf r) _ _ hlt]
    exact ⟨rfl, by simp⟩
  · have hlt : lowOf r + j < lowOf r + i := by omega
    rw [simplify_pair_gt p q r (lowOf r) _ _ hlt, simplify_pair_lt p q r (lowOf r) _ _ hlt]
    exact ⟨rfl, by simp⟩

theorem simplifier_metric_c2_witness :
    validSig 0 1 0 ∧ (0 : Nat) < 0 + 1 + 0
    ∧ simplifyL 0 1 0 (lowOf 0) [lowOf 0 + 0, lowOf 0 + 0] = scalarSB (specMetric 0 1 0 0) :=
  ⟨by decide, by decide,
    (simplifier_metric_c2 0 1 0 (by decide) 0 0 (by decide) (by decide)).1⟩

/-- C4 counterexample: in `Algebra(1,0,0)` take `A = e1` (index 1),
`B = 1` (index 0), result blade `C = e1` (index 1).  Then
`grade(C) = 1 = |grade(B) - grade(A)|`, yet the left-contraction entry is
`'0'` while the geometric-product entry is the nonzero `b[0]*this[1]`:
the code filters by the signed difference `grades[yi]-grades[xi]`, not by
its absolute value. -/
theorem dot_grade_filter_c4_cex :
    gpContrib 1 0 0 1 1 = some 0
    ∧ (gradeOf 1 0 0 1 : Int) = |(gradeOf 1 0 0 0 : Int) - (gradeOf 1 0 0 1 : Int)|
    ∧ cpEntry 1 0 0 1 1 = Entry.zero
    ∧ gpEntry 1 0 0 1 1 ≠ Entry.zero := by decide

/-- C4 (amended): the left-contraction table entry at result blade `C` for
the pair contributing `(A,B) = (xi,yi)` equals the geometric-product entry
when `grade(C) = grade(B) - grade(A)` as a signed integer difference (so in
particular it is `'0'` whenever `grade(A) > grade(B)`), and is `'0'` at
every other result grade. -/
theorem dot_grade_filter_c4 (p q r oi xi yi : Nat)
    (h : gpContrib p q r oi xi = some yi) :
    cpEntry p q r oi xi =
      (if (gradeOf p q r oi : Int) = (gradeOf p q r yi : Int) - gradeOf p q r xi
       then gpEntry p q r oi xi else .zero) := by
  unfold cpEntry
  rw [h]

theorem dot_grade_filter_c4_witness :
    gpContrib 1 0 0 1 1 = some 0
    ∧ cpEntry 1 0 0 1 1 =
        (if (gradeOf 1 0 0 1 : Int) = (gradeOf 1 0 0 0 : Int) - gradeOf 1 0 0 1
         then gpEntry 1 0 0 1 1 else .zero) :=
  ⟨by decide, dot_grade_filter_c4 1 0 0 1 1 0 (by decide)⟩

/-- C5: an outer-product table entry is nonzero only when the grade of the
result blade equals `grade(A) + grade(B)`; every entry at any other result
grade is `'0'`. -/
theorem wedge_grade_additive_c5 (p q r oi xi : Nat) (ng : Bool) (yi xj : Nat)
    (h : opEntry p q r oi xi = .term ng yi xj) :
    gradeOf p q r oi = gradeOf p q r xi + gradeOf p q r yi := by
  unfold opEntry at h
  split at h
  · exact absurd h (by simp)
  · next y0 heq =>
    split at h
    · next hg =>
      split at h
      · exact absurd h (by simp)
      · next ng2 d hm =>
        injection h with h1 h2 h3
        subst h2
        exact hg
    · exact absurd h (by simp)

theorem wedge_grade_additive_c5_witness :
    opEntry 2 0 0 3 1 = .term false 2 1
    ∧ gradeOf 2 0 0 3 = gradeOf 2 0 0 1 + gradeOf 2 0 0 2 :=
  ⟨by decide, wedge_grade_additive_c5 2 0 0 3 1 false 2 1 (by decide)⟩

unseal Rat.add Rat.mul in
/-- C6 counterexample: in `Algebra(0,0,1)` the null vector `e0` has
normalizer `(e0 * Involute(e0))[0] = 0`, yet `Inverse` does not fail: it
returns an element whose scalar coefficient is the non-finite `NaN`
(`1/0 = Infinity`, then `0 * Infinity = NaN`).  There is no
`SingularElementError` (or any error path) in the code. -/
theorem singular_inverse_c6_cex :
    (mulN 0 0 1 [JSNum.fin 0, JSNum.fin 1]
        (involuteN 0 0 1 [JSNum.fin 0, JSNum.fin 1])).getD 0 (.fin 0) = JSNum.fin 0
    ∧ ((inverseN 0 0 1 [JSNum.fin 0, JSNum.fin 1]).getD 0 JSNum.nan).nonFinite = true := by
  decide

unseal Rat.add Rat.mul in
/-- C6 (amended): requesting `Inverse` of an element whose closed-form
normalizer is zero silently returns an element with Infinity/NaN
coefficients; e.g. in `Algebra(0,0,1)`, `Inverse(e0) = [NaN, -Infinity]`. -/
theorem singular_inverse_c6 :
    inverseN 0 0 1 [JSNum.fin 0, JSNum.fin 1] = [JSNum.nan, JSNum.ninf] := by
  decide

/-- C7 counterexample: at `tot = 13`, far beyond the claimed supported
bound, the construction does not fail: it silently builds the full
`2^13`-element basis (and would go on to build the `2^13 x 2^13` tables).
There is no `ConfigurationError` (or any signature check) in the code. -/
theorem dimension_bound_c7_cex :
    (basisNames 13 0 0).length = 2 ^ 13 :=
  basisNames_length 13 0 0

/-- C7 (amended): no dimension bound is enforced: for every signature
`(p,q,r)` whatsoever, algebra construction proceeds and produces the full
`2^(p+q+r)`-entry basis list; no `ConfigurationError` exists. -/
theorem dimension_bound_c7 (p q r : Nat) :
    (basisNames p q r).length = 2 ^ (p + q + r) :=
  basisNames_length p q r

/-- C9: when `Length` evaluates to zero, `Normalized` returns the element
itself unchanged instead of dividing by zero (so it cannot introduce
Infinity or NaN coefficients from a zero-length input).  `sq` stands for
`Math.sqrt`, applied as in line 739 to `|.(this * Conjugate(this)).s|`. -/
theorem normalized_zero_length_c9 (p q r : Nat) (sq : Rat → Rat) (a : List Rat)
    (h : sq (lengthSqArg p q r a) = 0) :
    normalizedW p q r sq a = a := by
  unfold normalizedW
  rw [h]
  simp

unseal Rat.add Rat.mul in
theorem normalized_zero_length_c9_witness :
    id (lengthSqArg 1 0 0 [0, 0]) = 0
    ∧ normalizedW 1 0 0 id [0, 0] = [0, 0] :=
  ⟨by decide, normalized_zero_length_c9 1 0 0 id [0, 0] (by decide)⟩

/-- C10: calling any generated `Add`/`Sub`/`Mul`/`Dot`/`Wedge`/`Vee` without
the optional `res` argument runs the synthesized body on a freshly
allocated all-zero result array; the body assigns only `res` components, so
every coefficient of both operands is left unchanged. -/
theorem ops_frame_c10 (p q r : Nat) (k : OpKind) (a b : List Int) :
    (callOp p q r k a b).ths = a ∧ (callOp p q r k a b).b = b :=
  runBody_frame (codegen p q r k) ⟨a, b, List.replicate (2 ^ (p + q + r)) 0⟩
    (codegen_targets p q r k)

end Ganja

namespace Ganja

/-! ## Tokenizer (ganja.js lines 636-643)

The translator scans the source left to right; at each position the six
token-category regexes are tried in fixed order (whitespace/comment, string
literal, scientific/algebraic literal, plain number, punctuator,
identifier) and the first match is consumed.  Each category regex is
embedded below as a character-list matcher returning the matched characters
and the remaining input; JS regex alternation picks the first matching
alternative, which the matchers reproduce.  (A JS quirk: the identifier
regex also matches the empty string, on which the source loop would not
advance; the embedded tokenizer stops instead of diverging.) -/

/-- Longest digit prefix. -/
def takeDigits : List Char → List Char × List Char
  | c :: cs =>
    if c.isDigit then
      let x := takeDigits cs
      (c :: x.1, x.2)
    else ([], c :: cs)
  | [] => ([], [])

/-- Longest identifier-character prefix (`[A-Za-z0-9_]`). -/
def takeIdChars : List Char → List Char × List Char
  | c :: cs =>
    if c.isAlpha ∨ c.isDigit ∨ c = '_' then
      let x := takeIdChars cs
      (c :: x.1, x.2)
    else ([], c :: cs)
  | [] => ([], [])

/-- Scan up to and including the first newline (for `//` comments, which
the regex requires to be newline-terminated). -/
def takeLineComment : List Char → Option (List Char × List Char)
  | [] => none
  | c :: cs =>
    if c = '\n' then some ([c], cs)
    else (takeLineComment cs).map (fun x => (c :: x.1, x.2))

/-- Scan up to and including the first `*``/` (non-greedy block comment). -/
def takeBlockComment : List Char → Option (List Char × List Char)
  | '*' :: '/' :: cs => some (['*', '/'], cs)
  | c :: cs => (takeBlockComment cs).map (fun x => (c :: x.1, x.2))
  | [] => none

/-- Category 0: one whitespace character, or a line/block comment. -/
def matchCat0 : List Char → Option (List Char × List Char)
  | [] => none
  | c :: cs =>
    if c.isWhitespace ∨ c = '￿' then some ([c], cs)
    else if c = '/' then
      match cs with
      | '/' :: cs2 => (takeLineComment cs2).map (fun x => ('/' :: '/' :: x.1, x.2))
      | '*' :: cs2 => (takeBlockComment cs2).map (fun x => ('/' :: '*' :: x.1, x.2))
      | _ => none
    else none

/-- Scan the body of a quoted string: shortest content ending with a
closing quote whose preceding character is not a backslash (`.*?[^\]q`);
for the single- and double-quote forms a newline aborts the match. -/
def strScan (q : Char) (allowNl : Bool) : Char → List Char → Option (List Char × List Char)
  | _, [] => none
  | prev, c :: cs =>
    if ¬allowNl ∧ (c = '\n' ∨ c = '\r') then none
    else if c = q ∧ prev ≠ '\\' then some ([c], cs)
    else (strScan q allowNl c cs).map (fun x => (c :: x.1, x.2))

/-- Category 1: string literals. -/
def matchCat1 : List Char → Option (List Char × List Char)
  | '"' :: '"' :: cs => some (['"', '"'], cs)
  | '\'' :: '\'' :: cs => some (['\'', '\''], cs)
  | q :: c1 :: cs =>
    if q = '"' ∨ q = '\'' ∨ q = '`' then
      (strScan q (q = '`') c1 cs).map (fun x => (q :: c1 :: x.1, x.2))
    else none
  | _ => none

/-- `[ei][\+\-_]{0,1}\d*`, the tail of an algebraic literal. -/
def matchSciTail : List Char → Option (List Char × List Char)
  | [] => none
  | c :: cs =>
    if c = 'e' ∨ c = 'i' then
      match cs with
      | s :: cs2 =>
        if s = '+' ∨ s = '-' ∨ s = '_' then
          let x := takeDigits cs2
          some (c :: s :: x.1, x.2)
        else
          let x := takeDigits cs
          some (c :: x.1, x.2)
      | [] => some ([c], [])
    else none

/-- Category 2 (line 639): algebraic literals in scientific notation:
`\d+[.]{0,1}\d*[ei][\+\-_]{0,1}\d*`, `\.\d+[ei][\+\-_]{0,1}\d*`, or
`e_\d*`. -/
def matchCat2 (cs : List Char) : Option (List Char × List Char) :=
  (match takeDigits cs with
   | ([], _) => none
   | (d1, rest1) =>
     let dr : List Char × List Char :=
       match rest1 with
       | '.' :: rr => (['.'], rr)
       | _ => ([], rest1)
     let d2 := takeDigits dr.2
     (matchSciTail d2.2).map (fun x => (d1 ++ dr.1 ++ d2.1 ++ x.1, x.2)))
  <|>
  (match cs with
   | '.' :: rr =>
     match takeDigits rr with
     | ([], _) => none
     | (d1, rest1) => (matchSciTail rest1).map (fun x => ('.' :: d1 ++ x.1, x.2))
   | _ => none)
  <|>
  (match cs with
   | 'e' :: '_' :: rr =>
     let x := takeDigits rr
     some ('e' :: '_' :: x.1, x.2)
   | _ => none)

/-- `[E][+-]{0,1}\d*`. -/
def matchETail : List Char → Option (List Char × List Char)
  | 'E' :: cs =>
    match cs with
    | s :: cs2 =>
      if s = '+' ∨ s = '-' then
        let x := takeDigits cs2
        some ('E' :: s :: x.1, x.2)
      else
        let x := takeDigits cs
        some ('E' :: x.1, x.2)
    | [] => some (['E'], [])
  | _ => none

/-- The greedy search for the last `x/)` (with `x` not a backslash, no
newline crossed) of the bracketed-regex alternative `\(\/.*[^\\]\/\)`. -/
def lastRE : List Char → Option (List Char × List Char)
  | [] => none
  | c :: cs =>
    if c = '\n' ∨ c = '\r' then none
    else
      match lastRE cs with
      | some x => some (c :: x.1, x.2)
      | none =>
        match cs with
        | '/' :: ')' :: t => if c ≠ '\\' then some ([c, '/', ')'], t) else none
        | _ => none

/-- Category 3 (line 640): capital-E scientific numbers, `0x` literals,
plain numbers, and bracketed regex literals, alternatives in source
order. -/
def matchCat3 (cs : List Char) : Option (List Char × List Char) :=
  (match takeDigits cs with
   | ([], _) => none
   | (d1, rest1) =>
     let dr : List Char × List Char :=
       match rest1 with
       | '.' :: rr => (['.'], rr)
       | _ => ([], rest1)
     let d2 := takeDigits dr.2
     (matchETail d2.2).map (fun x => (d1 ++ dr.1 ++ d2.1 ++ x.1, x.2)))
  <|>
  (match cs with
   | '.' :: rr =>
     match takeDigits rr with
     | ([], _) => none
     | (d1, rest1) => (matchETail rest1).map (fun x => ('.' :: d1 ++ x.1, x.2))
   | _ => none)
  <|>
  (match cs with
   | '0' :: 'x' :: rr =>
     match takeDigits rr with
     | ([], _) => none
     | (d1, rest1) => some ('0' :: 'x' :: d1, rest1)
   | _ => none)
  <|>
  (match takeDigits cs with
   | ([], _) => none
   | (d1, rest1) =>
     match rest1 with
     | '.' :: rr =>
       let d2 := takeDigits rr
       some (d1 ++ '.' :: d2.1, d2.2)
     | _ => some (d1, rest1))
  <|>
  (match cs with
   | '.' :: rr =>
     match takeDigits rr with
     | ([], _) => none
     | (d1, rest1) => some ('.' :: d1, rest1)
   | _ => none)
  <|>
  (match cs with
   | '(' :: '/' :: rr => (lastRE rr).map (fun x => ('(' :: '/' :: x.1, x.2))
   | _ => none)

/-- Try to strip a literal pattern prefix. -/
def stripPat (pat : List Char) (cs : List Char) : Option (List Char × List Char) :=
  match pat, cs with
  | [], rest => some ([], rest)
  | pc :: ps, c :: rest =>
    if c = pc then (stripPat ps rest).map (fun x => (c :: x.1, x.2)) else none
  | _ :: _, [] => none

/-- First matching pattern from a list (regex alternation order). -/
def firstPat (pats : List String) (cs : List Char) : Option (List Char × List Char) :=
  match pats with
  | [] => none
  | p :: ps =>
    match stripPat p.toList cs with
    | some x => some x
    | none => firstPat ps cs

/-- Category 4 (line 641): punctuators, alternatives in source order. -/
def matchCat4 (cs : List Char) : Option (List Char × List Char) :=
  (firstPat [".Normalized", ".Length", "...", ">>>=", "===", "!==", ">>>",
    "<<=", ">>=", "=>"] cs)
  <|>
  (match cs with
   | a :: '=' :: t =>
     if ("<>+-*%&|^/!=".toList).contains a then some ([a, '='], t) else none
   | _ => none)
  <|>
  (firstPat ["**", "++", "--", "<<", ">>", "&&", "^^"] cs)
  <|>
  (match cs with
   | a :: t =>
     if ("\x7b\x7d()[];.,<>+-*%|&^!~?:=/".toList).contains a then some ([a], t) else none
   | [] => none)

/-- Category 5 (line 642): identifiers (refusing the empty match on which
the source loop would fail to advance). -/
def matchCat5 (cs : List Char) : Option (List Char × List Char) :=
  match takeIdChars cs with
  | ([], _) => none
  | x => some x

/-- One tokenization step: categories in priority order. -/
def matchTok (cs : List Char) : Option (Nat × List Char × List Char) :=
  match matchCat0 cs with
  | some x => some (0, x.1, x.2)
  | none =>
    match matchCat1 cs with
    | some x => some (1, x.1, x.2)
    | none =>
      match matchCat2 cs with
      | some x => some (2, x.1, x.2)
      | none =>
        match matchCat3 cs with
        | some x => some (3, x.1, x.2)
        | none =>
          match matchCat4 cs with
          | some x => some (4, x.1, x.2)
          | none =>
            match matchCat5 cs with
            | some x => some (5, x.1, x.2)
            | none => none

def tokenizeGo : Nat → List Char → List (Nat × String)
  | 0, _ => []
  | _, [] => []
  | fuel + 1, cs =>
    match matchTok cs with
    | some (t, m, rest) => (t, String.mk m) :: tokenizeGo fuel rest
    | none => []

/-- The tokenizer loop (line 643). -/
def tokenize (s : String) : List (Nat × String) :=
  tokenizeGo (s.length + 1) s.toList

end Ganja

namespace Ganja

/-! ## Literal rewrite and operator table (ganja.js lines 645-650) -/

/-- Split a literal at the first `e_`/`e`/`i` separator (the JS
`split(/e_|e|i/)`): returns the parts before and after it. -/
def splitEI : List Char → List Char × List Char
  | [] => ([], [])
  | 'e' :: '_' :: cs => ([], cs)
  | 'e' :: cs => ([], cs)
  | 'i' :: cs => ([], cs)
  | c :: cs =>
    let x := splitEI cs
    (c :: x.1, x.2)

/-- `parseFloat` of a decimal literal followed by JS number-to-string
formatting: leading integer zeros and trailing fraction zeros disappear
(`"2.50"` prints `"2.5"`, `".5"` prints `"0.5"`). -/
def floatFmt (s : List Char) : String :=
  let ip := takeDigits s
  let fp : List Char :=
    match ip.2 with
    | '.' :: t => (takeDigits t).1
    | _ => []
  let ip2 := ip.1.dropWhile (· = '0')
  let ip3 := if ip2 = [] then ['0'] else ip2
  let fp2 := (fp.reverse.dropWhile (· = '0')).reverse
  if fp2 = [] then String.mk ip3 else String.mk (ip3 ++ '.' :: fp2)

/-- JS `Array.indexOf`: the index of the first occurrence, or `-1`. -/
def jsIndexOf (l : List String) (x : String) : Int :=
  match l.findIdx? (· = x) with
  | some i => i
  | none => -1

/-- Rewrite one algebraic literal (line 645) into an
`Element.Coeff(index,value)` call: the basis index comes from `'e'` plus
the part after the separator (defaulting to `1`), the value from
`parseFloat` of the part before it (or `1` when the literal starts with
`e`). -/
def coeffCode (basis : List String) (s : String) : String :=
  let cs := s.toList
  let pr := splitEI cs
  let nm := "e" ++ (if pr.2 = [] then "1" else String.mk pr.2)
  let coef := if cs.headD ' ' = 'e' then "1" else floatFmt pr.1
  "Element.Coeff(" ++ toString (jsIndexOf basis nm) ++ "," ++ coef ++ ")"

/-- Apply the literal rewrite to a token stream. -/
def literalMap (basis : List String) (ts : List (Nat × String)) : List (Nat × String) :=
  ts.map (fun t => if t.1 = 2 then (2, coeffCode basis t.2) else t)

/-- An operator descriptor: symbol, target operation name, the optional
numeric flag (`undefined` and `0` behave identically in the source and are
both embedded as `0`), and right-to-left associativity (`op[3]`). -/
structure Op where
  sym : String
  name : String
  flag : Nat := 0
  rtl : Bool := false
deriving DecidableEq, Repr

/-- The default (function-input) operator table (line 647), in decreasing
precedence. -/
def jsOps : List (List Op) :=
  [[⟨".Normalized", "Normalize", 2, false⟩, ⟨".Length", "Length", 2, false⟩,
    ⟨".", ".", 3, false⟩],
   [⟨"~", "Conjugate", 1, false⟩, ⟨"!", "Dual", 1, false⟩],
   [⟨"**", "Pow", 0, true⟩],
   [⟨">>>", "sw", 0, true⟩, ⟨"^", "Wedge", 0, false⟩, ⟨"&", "Vee", 0, false⟩,
    ⟨"<<", "Dot", 0, false⟩],
   [⟨"*", "Mul", 0, false⟩, ⟨"/", "Div", 0, false⟩],
   [⟨"-", "Sub", 0, false⟩, ⟨"+", "Add", 0, false⟩],
   [⟨"<", "lt", 0, false⟩, ⟨">", "gt", 0, false⟩, ⟨"<=", "lte", 0, false⟩,
    ⟨">=", "gte", 0, false⟩]]

/-- The fixed identifier translations of line 650: an identifier token that
equals some operator symbol of the table is replaced by that operator's
target name.  (A no-op for the default table, whose symbols are all
punctuation.) -/
def keywordMap (tbl : List (List Op)) (ts : List (Nat × String)) : List (Nat × String) :=
  ts.map (fun t =>
    if t.1 ≠ 5 then t
    else
      match tbl.flatten.find? (fun o => o.sym = t.2) with
      | some o => (5, o.name)
      | none => t)

/-! ## The recursive precedence rewriter (ganja.js lines 652-711)

Tokens during translation are either the scanned `(category, lexeme)`
atoms or nested groups (JS arrays of tokens).  The JS accesses `t[0]` and
`t[1]` behave on a group as "first element" (never equal to a category
number) and "second element" (never equal to a lexeme string); the
embedded accessors return `none` for groups accordingly.  The working
list `resi` is kept in reverse (most recent first), matching the
push/pop-at-the-end usage of the source. -/

inductive Tok where
  | atom (ty : Nat) (s : String)
  | grp (ts : List Tok)
deriving Repr, Inhabited

def tokTy : Tok → Option Nat
  | .atom ty _ => some ty
  | .grp _ => none

def tokStr : Tok → Option String
  | .atom _ s => some s
  | .grp _ => none

/-- `t[1].match && t[1].match(/^\s+$/)`: an atom of one or more whitespace
characters. -/
def isWsTok : Tok → Bool
  | .atom _ s => ¬ s.toList.isEmpty ∧ s.toList.all Char.isWhitespace
  | .grp _ => false

/-- `isTok(x,t)` (line 653): look back past whitespace atoms and compare
the category found there. -/
def isTokR (resi : List Tok) (ty : Nat) : Bool :=
  match resi.dropWhile (fun t => tokTy t = some 0) with
  | t :: _ => tokTy t = some ty
  | [] =>
    match resi with
    | [] => false
    | _ => ty = 0

/-- Pop the call target in front of `(` (line 656): trailing identifier
atoms and `.` atoms, in pop order. -/
def popPre5 : List Tok → List String × List Tok
  | [] => ([], [])
  | t :: rest =>
    if tokTy t = some 5 ∨ tokStr t = some "." then
      let x := popPre5 rest
      ((tokStr t).getD "" :: x.1, x.2)
    else ([], t :: rest)

/-- Pop the indexing target in front of `[` (line 658), with the
whitespace-skipping `isTok` checks of the source. -/
def popPreSq : List Tok → List String × List Tok
  | [] => ([], [])
  | t :: rest =>
    if isTokR (t :: rest) 5 ∨ isTokR (t :: rest) 2 ∨ tokStr t = some "." then
      let x := popPreSq rest
      ((tokStr t).getD "" :: x.1, x.2)
    else ([], t :: rest)

/-- Collect a balanced bracket group: the tokens strictly between the
bracket pair (inner brackets included), and the rest after the close. -/
def splitB (o c : String) : List Tok → Nat → List Tok × List Tok
  | [], _ => ([], [])
  | t :: rest, depth =>
    if tokStr t = some o then
      let x := splitB o c rest (depth + 1)
      (t :: x.1, x.2)
    else if tokStr t = some c then
      if depth = 0 then ([], rest)
      else
        let x := splitB o c rest (depth - 1)
        (t :: x.1, x.2)
    else
      let x := splitB o c rest depth
      (t :: x.1, x.2)

/-- The operand collection of a `~`/`!` prefix (line 660): keep consuming
while the last consumed token is `~`, `!` or `-` or brackets are open. -/
def collectUnary : List Tok → Nat → String → List Tok × List Tok
  | [], _, _ => ([], [])
  | t :: rest, depth, cur =>
    if cur = "~" ∨ cur = "!" ∨ cur = "-" ∨ 0 < depth then
      let d2 :=
        if tokStr t = some "(" then depth + 1
        else if tokStr t = some ")" then depth - 1
        else depth
      let x := collectUnary rest d2 ((tokStr t).getD "")
      (t :: x.1, x.2)
    else ([], t :: rest)

/-- The unary-minus context test (line 661): the previous significant token
is a punctuator, or a `return`. -/
def unaryMinusCond (resi : List Tok) : Bool :=
  isTokR resi 4
  || (match resi with
      | t :: _ => tokStr t == some "return"
      | [] => false)
  || (match resi with
      | t :: u :: _ => (tokTy t == some 0) && (tokStr u == some "return")
      | _ => false)

/-- The "glue" condition of line 664: a group whose first token is a
category-2 atom starting with `(` or `[`. -/
def condGlue : Tok → Bool
  | .grp (Tok.atom 2 s :: _) =>
    match s.toList with
    | c :: _ => c = '(' ∨ c = '['
    | [] => false
  | _ => false

def glueGo : List Tok → Option (List Tok) → List Tok → List Tok
  | acc, pend, [] =>
    acc ++ (match pend with | some g => [Tok.grp g] | none => [])
  | acc, pend, t :: rest =>
    if ¬ condGlue t then
      glueGo (acc ++ (match pend with | some g => [Tok.grp g] | none => []) ++ [t]) none rest
    else
      match pend with
      | some g => glueGo acc (some (g ++ [t])) rest
      | none =>
        match rest with
        | nxt :: _ =>
          if condGlue nxt then glueGo acc (some [t]) rest
          else glueGo (acc ++ [t]) none rest
        | [] => glueGo (acc ++ [t]) none rest

/-- The array-indexing/function-call glue pass (line 664). -/
def gluePass (ts : List Tok) : List Tok := glueGo [] none ts

/-- `resi[resi.length-1][0]==4`: the last working token is a punctuator
atom. -/
def headTy4 : List Tok → Bool
  | u :: _ => tokTy u == some 4
  | [] => false

/-- One left-to-right operator pass over a precedence level
(lines 687-707).  `resi` is reversed.  The pass consumes at least one
input token per step, so any `fuel` above the input length is exact. -/
def ltrPass (lvl : List Op) : Nat → List Tok → List Tok → List Tok
  | 0, resi, ts => resi.reverse ++ ts
  | _ + 1, resi, [] => resi.reverse
  | fuel + 1, resi, t :: rest =>
    match (tokStr t).bind (fun s => lvl.find? (fun o => o.sym = s)) with
    | none => ltrPass lvl fuel (t :: resi) rest
    | some op =>
      let resi1 := if op.flag ≠ 1 then resi.dropWhile isWsTok else resi
      if op.flag = 2 then
        match resi1 with
        | last :: r2 =>
          ltrPass lvl fuel
            (Tok.grp [Tok.atom 1 ("Element." ++ op.name ++ "("), last, Tok.atom 1 ")"] :: r2) rest
        | [] => ltrPass lvl fuel resi1 rest
      else
        let rest1 := rest.dropWhile isWsTok
        let after := rest1.headD (Tok.atom 1 "")
        let rest2 := rest1.tail
        if op.flag = 3 then
          match resi1 with
          | last :: r2 => ltrPass lvl fuel (Tok.grp [last, Tok.atom 1 ".", after] :: r2) rest2
          | [] => ltrPass lvl fuel (Tok.grp [Tok.atom 1 ".", after] :: resi1) rest2
        else if op.flag ≠ 0 ∨ resi1.isEmpty ∨ headTy4 resi1 then
          ltrPass lvl fuel
            (Tok.grp [Tok.atom 1 ("Element." ++ op.name ++ "("), after, Tok.atom 1 ")"] :: resi1)
            rest2
        else
          match resi1 with
          | last :: r2 =>
            ltrPass lvl fuel
              (Tok.grp [Tok.atom 1 ("Element." ++ op.name ++ "("), last, Tok.atom 1 ",",
                after, Tok.atom 1 ")"] :: r2) rest2
          | [] => ltrPass lvl fuel resi1 rest2

/-- One right-to-left operator pass (lines 670-685).  The input stream is
processed reversed; `resi` accumulates most-recent-first, which after the
whole pass is the original order (the source's final `reverse`). -/
def rtlPass (op : Op) : Nat → List Tok → List Tok → List Tok
  | 0, resi, _ => resi
  | _ + 1, resi, [] => resi
  | fuel + 1, resi, t :: rest =>
    if tokStr t = some op.sym then
      let resi1 := resi.dropWhile isWsTok
      let rest1 := if op.flag = 0 then rest.dropWhile isWsTok else rest
      let after := rest1.headD (Tok.atom 1 "")
      let rest2 := rest1.tail
      if op.flag ≠ 0 ∨ resi1.isEmpty ∨ headTy4 resi1 then
        match resi1 with
        | last :: _ =>
          rtlPass op fuel
            (Tok.grp [Tok.atom 1 ("Element." ++ op.name ++ "("), last, Tok.atom 1 ")"] :: resi1)
            rest2
        | [] =>
          rtlPass op fuel
            (Tok.grp [Tok.atom 1 ("Element." ++ op.name ++ "("), Tok.atom 1 ")"] :: resi1) rest2
      else
        match resi1 with
        | last :: r2 =>
          rtlPass op fuel
            (Tok.grp [Tok.atom 1 ("Element." ++ op.name ++ "("), after, Tok.atom 1 ",",
              last, Tok.atom 1 ")"] :: r2) rest2
        | [] => rtlPass op fuel resi1 rest2
    else rtlPass op fuel (t :: resi) rest

/-- Apply one precedence level: one pass per operator of the level (the
left-to-right passes scan for every symbol of the level, as in the
source). -/
def applyLevel (toks : List Tok) (lvl : List Op) : List Tok :=
  lvl.foldl (fun ts op =>
    if op.rtl then rtlPass op (ts.length + 1) [] ts.reverse
    else ltrPass lvl (ts.length + 1) [] ts) toks

def applyLevels (tbl : List (List Op)) (toks : List Tok) : List Tok :=
  tbl.foldl applyLevel toks

/-- The first loop of `translate` (lines 654-662): round/square bracket
recursion (with the call-target prefix pulled inside), `~`/`!` prefixes,
and unary minus.  `resi` is reversed; `tr` is the recursive translation
applied to bracket and unary sub-streams; the fuel dominates the number of
tokens consumed at this level. -/
def phaseA (tr : List Tok → List Tok) : Nat → List Tok → List Tok → List Tok
  | 0, resi, rest => resi.reverse ++ rest
  | _ + 1, resi, [] => resi.reverse
  | fuel + 1, resi, t :: rest =>
    if tokStr t = some "(" then
      let pp := popPre5 resi
      let sb := splitB "(" ")" rest 0
      phaseA tr fuel
        (Tok.grp (Tok.atom 2 (String.join pp.1.reverse ++ "(")
          :: (tr sb.1 ++ [Tok.atom 2 ")"])) :: pp.2) sb.2
    else if tokStr t = some "[" then
      let pp := popPreSq resi
      let sb := splitB "[" "]" rest 0
      phaseA tr fuel
        (Tok.grp (Tok.atom 2 (String.join pp.1.reverse ++ "[")
          :: (tr sb.1 ++ [Tok.atom 2 "]"])) :: pp.2) sb.2
    else if tokStr t = some "~" ∨ tokStr t = some "!" then
      let cu := collectUnary rest 0 ((tokStr t).getD "")
      phaseA tr fuel (Tok.grp (Tok.atom 2 "" :: tr cu.1) :: t :: resi) cu.2
    else if tokStr t = some "-" ∧ ¬ resi.isEmpty ∧ unaryMinusCond resi then
      match rest with
      | nxt :: rest2 =>
        phaseA tr fuel (Tok.grp (Tok.atom 2 "" :: tr [t, nxt]) :: resi) rest2
      | [] => phaseA tr fuel (t :: resi) []
    else phaseA tr fuel (t :: resi) rest

/-- `translate(tokens)` (line 652): bracket/unary recursion, the glue
pass, then the precedence levels.  The fuel dominates both the bracket
nesting depth and the token count of any sub-stream; any value above the
total token count works, and the caller passes more. -/
def translateF (tbl : List (List Op)) : Nat → List Tok → List Tok
  | 0, ts => ts
  | fuel + 1, ts => applyLevels tbl (gluePass (phaseA (translateF tbl fuel) fuel [] ts))

/-- The reassembly of line 713: concatenate all lexemes in order.  The
fuel dominates the nesting depth of the token tree. -/
def flattenF : Nat → Tok → String
  | 0, _ => ""
  | fuel + 1, t =>
    match t with
    | .atom _ s => s
    | .grp ts => String.join (ts.map (flattenF fuel))

def toToks (ts : List (Nat × String)) : List Tok :=
  ts.map (fun t => Tok.atom t.1 t.2)

/-- The whole `inline` translation pipeline on an expression source string
(lines 628-713): tokenize, rewrite algebraic literals against the basis,
apply the fixed identifier translations, run the recursive precedence
rewriter with the given operator table, and reassemble the output
expression text. -/
def inlineT (basis : List String) (tbl : List (List Op)) (src : String) : String :=
  let ts := keywordMap tbl (literalMap basis (tokenize src))
  String.join ((translateF tbl (2 * ts.length + 8) (toToks ts)).map
    (flattenF (8 * ts.length + 64)))

end Ganja

namespace Ganja

/-! ## Evaluation of translated expressions (for the C3 round trip)

`inline` finally `eval`s the reassembled text and, for
`Algebra(p,q,r,fu)`, calls it (line 755).  The text produced for the C3
scenario is a nest of `Element.Mul`/`Element.Add`/`Element.Coeff` calls
and number literals; we bridge the `eval` by exhibiting an expression tree
whose printed form is exactly the translator output and interpreting it
with the static-operator semantics of lines 162-215: both `Add` and `Mul`
compute in plain JS when neither argument is an element, and otherwise
lift numbers with `Element.Scalar` and call the generated methods.
Float32 arithmetic on these small integers is exact, so coefficients are
embedded as integers. -/

inductive Expr where
  | num (n : Int)
  | coeff (i : Nat) (c : Int)
  | add (x y : Expr)
  | mul (x y : Expr)
  | paren (x : Expr)
deriving DecidableEq, Repr

/-- Print an expression tree the way the translator prints its output. -/
def exprCode : Expr → String
  | .num n => toString n
  | .coeff i c => "Element.Coeff(" ++ toString i ++ "," ++ toString c ++ ")"
  | .add x y => "Element.Add(" ++ exprCode x ++ "," ++ exprCode y ++ ")"
  | .mul x y => "Element.Mul(" ++ exprCode x ++ "," ++ exprCode y ++ ")"
  | .paren x => "(" ++ exprCode x ++ ")"

/-- A JS value in the evaluated expression: a number or an element. -/
inductive JSVal where
  | num (n : Int)
  | elem (l : List Int)
deriving DecidableEq, Repr

/-- `Element.toEl` (line 162): numbers become `Element.Scalar`. -/
def toElV (p q r : Nat) : JSVal → List Int
  | .num n => (List.range (2 ^ (p + q + r))).map (fun i => if i = 0 then n else 0)
  | .elem l => l

/-- Evaluate a translated expression with the static operators of the
generated algebra class: `Element.Coeff` (line 152), `Element.Add`
(line 165: plain JS addition unless an element is involved) and
`Element.Mul` (line 196: plain JS product unless it is NaN, then the
geometric product). -/
def evalExpr (p q r : Nat) : Expr → JSVal
  | .num n => .num n
  | .coeff i c => .elem ((List.range (2 ^ (p + q + r))).map (fun j => if j = i then c else 0))
  | .paren x => evalExpr p q r x
  | .add x y =>
    match evalExpr p q r x, evalExpr p q r y with
    | .num a, .num b => .num (a + b)
    | a, b => .elem (addZ p q r (toElV p q r a) (toElV p q r b))
  | .mul x y =>
    match evalExpr p q r x, evalExpr p q r y with
    | .num a, .num b => .num (a * b)
    | a, b => .elem (mulZ p q r (toElV p q r a) (toElV p q r b))

/-- The C3 literal source, as the body of `Algebra(0,1,()=>(3+2e1)*(1+4e1))`. -/
def c3src : String := "(3+2e1)*(1+4e1)"

/-- The call tree the translator is expected to produce for `c3src`. -/
def c3expr : Expr :=
  .mul (.paren (.add (.num 3) (.coeff 1 2))) (.paren (.add (.num 1) (.coeff 1 4)))

/-- C3: in `Algebra(0,1)` (the complex numbers), translating the literal
expression `(3+2e1)*(1+4e1)` with the default (function-input) dialect
produces exactly the call tree `Mul(Add(3, Coeff(1,2)), Add(1, Coeff(1,4)))`
(up to the retained round brackets), and evaluating that tree with the
generated operations yields the coefficient vector `[-5, 14]`, i.e.
`-5 + 14·e1`. -/
theorem literal_roundtrip_c3 :
    inlineT (basisNames 0 1 0) jsOps c3src = exprCode c3expr
    ∧ evalExpr 0 1 0 c3expr = .elem [-5, 14] := by
  constructor
  · decide
  · decide

/-- C8: translating `"a+b*c"` under the default infix dialect produces the
call tree `Add(a, Mul(b,c))`: the `*` level of the operator table is
rewritten before the `+` level. -/
theorem translator_precedence_c8 :
    inlineT (basisNames 3 0 0) jsOps "a+b*c" = "Element.Add(a,Element.Mul(b,c))" := by
  decide

end Ganja
